import Mathlib

/-!
Verification development for the llm-council orchestration engine.

Shallow embedding of the backend's pure decision logic:
* `backend/src/engine/pipeline/runner.py` — path normalization, the
  deterministic scope gate, and the gate-iteration loop;
* `backend/src/engine/openrouter.py` — the upstream client's cooldown,
  retry and backoff behaviour, modelled as a pure function over a
  response oracle and a random-jitter oracle;
* `backend/src/services/usage.py` — usage-event recording;
* `backend/src/services/runs.py` — `end_run` over an association-list store;
* `backend/src/services/council_runner.py` — the budget check and the
  budgeted sequential stage-1 loop, and the stage-1/stage-2 cache-write
  conditions;
* `backend/src/engine/council.py` — aggregate ranking;
* `backend/src/mcp/types.py` — `max_iterations` clamping.

Strings are modelled with Lean `String` / `List Char`; Python floats are
modelled as exact rationals at the decimal level (`round(x, n)` becomes
round-half-to-even on `ℚ` scaled by `10^n`); wall-clock instants are
naturals.
-/

deriving instance DecidableEq for Except

namespace LLMCouncil

/-! ### Character-level string helpers (Python `str` operations) -/

/-- Python's default `str.strip()` character class. -/
def isWs (c : Char) : Bool := c.isWhitespace

/-- Does `l` start with `pat`? (Used to detect substrings.) -/
def hasPre : List Char → List Char → Bool
  | [], _ => true
  | _ :: _, [] => false
  | p :: ps, c :: cs => p = c && hasPre ps cs

/-- Python's `pat in s` substring test. -/
def hasSub (pat : List Char) : List Char → Bool
  | [] => pat.isEmpty
  | c :: cs => hasPre pat (c :: cs) || hasSub pat cs

/-- Python's `s.endswith(pat)`. -/
def endsWith (pat l : List Char) : Bool := hasPre pat.reverse l.reverse

/-- Python's `s.strip()`: drop leading and trailing whitespace. -/
def stripChars (l : List Char) : List Char :=
  ((l.dropWhile isWs).reverse.dropWhile isWs).reverse

/-- Embeds `value.replace("\\", "/")` — single-character replacement is a map. -/
def backslashToSlash (l : List Char) : List Char :=
  l.map (fun c => if c = '\\' then '/' else c)

/-- Embeds `while v.startswith("./"): v = v[2:]` from `_normalize_path`. -/
def stripDotSlash : List Char → List Char
  | '.' :: '/' :: rest => stripDotSlash rest
  | l => l

/-- Embeds `while "//" in v: v = v.replace("//", "/")` from `_normalize_path`:
the loop's fixpoint collapses every run of slashes to a single slash. -/
def collapseSlash : List Char → List Char
  | [] => []
  | [c] => [c]
  | a :: b :: rest =>
    if a = '/' && b = '/' then collapseSlash (b :: rest)
    else a :: collapseSlash (b :: rest)

/-- Embeds `_normalize_path` (runner.py:40-46). -/
def normalizeChars (l : List Char) : List Char :=
  collapseSlash (stripDotSlash (backslashToSlash (stripChars l)))

/-- Embeds `_normalize_path` on `String`. -/
def normalizePath (s : String) : String := ⟨normalizeChars s.data⟩

/-- The file-path suffixes recognised by `_looks_like_file_path`. -/
def pathSuffixes : List (List Char) :=
  [".py".data, ".ts".data, ".tsx".data, ".md".data, ".yml".data, ".yaml".data, ".json".data]

/-- Embeds `_looks_like_file_path` (runner.py:49-58): strip, reject anything
containing `"://"`, then accept on a slash or a known suffix. -/
def looksLikeFilePath (s : String) : Bool :=
  let v := stripChars s.data
  if hasSub "://".data v then false
  else if v.contains '/' then true
  else pathSuffixes.any (fun suf => endsWith suf v)

/-- Modelled from the spec: the claim's own path classifier, "contains `/`,
or ends in one of .py .ts .tsx .md .yml .yaml .json" — written exactly from
those words (no `"://"` exclusion) to compare with `looksLikeFilePath`. -/
def specPathLike (s : String) : Bool :=
  s.data.contains '/' || pathSuffixes.any (fun suf => endsWith suf s.data)

/-! ### Pipeline schemas and the deterministic scope gate
(`backend/src/engine/pipeline/runner.py`, `backend/src/engine/pipeline/schemas.py`) -/

structure TestsPolicyM where
  required : Bool
deriving DecidableEq, Repr

/-- The `ScopeContract` fields read by the scope gate and gate loop. -/
structure ScopeContractM where
  in_scope : List String
  acceptance_criteria : List String
  tests_policy : TestsPolicyM
deriving DecidableEq, Repr

/-- The `CodexPromptOutput` fields read after the implementer phase. -/
structure CodexPromptOutputM where
  final_codex_prompt : String
  patch_scope : List String
deriving DecidableEq, Repr

structure MustFixItemM where
  severity : String
  file : String
  issue : String
  suggested_fix : String
deriving DecidableEq, Repr

structure AcceptanceCriterionMetM where
  criterion : String
  met : Bool
deriving DecidableEq, Repr

structure GateOutputM where
  verdict : String
  must_fix : List MustFixItemM
  acceptance_criteria_met : List AcceptanceCriterionMetM
  tests_required : Bool
deriving DecidableEq, Repr

/-- The normalized allowed set of `_enforce_scope_paths`:
`set(_normalize_path(a) for a in allowed if a.strip())` where
`allowed` keeps the `in_scope` entries that look like file paths. -/
def allowedNormalized (sc : ScopeContractM) : List String :=
  ((sc.in_scope.filter (fun s => looksLikeFilePath s)).filter
      (fun a => stripChars a.data ≠ [])).map normalizePath

/-- The normalized patch list of `_enforce_scope_paths`:
`[_normalize_path(p) for p in impl.patch_scope if p.strip()]`. -/
def patchNormalized (impl : CodexPromptOutputM) : List String :=
  (impl.patch_scope.filter (fun p => stripChars p.data ≠ [])).map normalizePath

/-- Embeds `_enforce_scope_paths` (runner.py:360-368). -/
def enforceScopePaths (sc : ScopeContractM) (impl : CodexPromptOutputM) : List String :=
  if (sc.in_scope.filter (fun s => looksLikeFilePath s)).isEmpty then []
  else
    let patch := patchNormalized impl
    if patch.isEmpty then ["(patch_scope_missing)"]
    else patch.filter (fun p => ¬ p ∈ allowedNormalized sc)

/-- The synthesized `GateOutput` of the scope-violation branch
(runner.py:374-395 and the identical block at 496-517). -/
def synthGate (sc : ScopeContractM) (violations : List String) : GateOutputM :=
  { verdict := "FAIL"
    must_fix := violations.map (fun v =>
      { severity := "high"
        file := v
        issue :=
          if v = "(patch_scope_missing)" then "patch_scope is empty"
          else "patch_scope includes file outside in_scope"
        suggested_fix :=
          if v = "(patch_scope_missing)" then
            "Populate patch_scope with the files that will be changed."
          else "Remove from patch_scope or add to in_scope if truly required." })
    acceptance_criteria_met :=
      sc.acceptance_criteria.map (fun c => { criterion := c, met := false })
    tests_required := sc.tests_policy.required }

/-- The run-step row recorded for a synthesized deterministic gate. -/
structure StepLogEntry where
  agent_role : String
  model : String
  error_text : Option String
deriving DecidableEq, Repr

/-- The fields of `PipelineResult` that the post-implementer phase decides. -/
structure PipelineResultM where
  implementer : Option CodexPromptOutputM
  gate : Option GateOutputM
  gate_verdict : String
  final_codex_prompt : Option String
  degraded : Bool
  errors : List String
deriving DecidableEq, Repr

/-- Output of the post-implementer phase: the result, the deterministic
run-step rows written, and how many times the gate model was called. -/
structure PipelinePhaseOut where
  result : PipelineResultM
  steps : List StepLogEntry
  gateCalls : Nat
deriving DecidableEq, Repr

/-- The step row written by the scope-violation branch (runner.py:396-408):
`agent_role="gate", model="deterministic", error_text="scope_violation"`. -/
def deterministicStep : StepLogEntry :=
  { agent_role := "gate", model := "deterministic", error_text := some "scope_violation" }

/-- The `PipelineResult` returned after the loop exits without `PASS`
(runner.py:533-545). -/
def loopExitResult (impl : CodexPromptOutputM) (gate : Option GateOutputM)
    (degraded : Bool) (errors : List String) : PipelineResultM :=
  { implementer := some impl
    gate := gate
    gate_verdict := "FAIL"
    final_codex_prompt := none
    degraded := if errors.isEmpty then degraded else true
    errors := errors }

/-- The gate-iteration loop (runner.py:424-531), with the gate model and the
revision call modelled as oracles `gateOracle` / `reviseOracle` (returning
`none` on an invalid-JSON outcome, as `_call_json_role` does).  `fuel` is
`max_iterations - iteration`. -/
def gateLoop (sc : ScopeContractM) (gateOracle : Nat → Option GateOutputM)
    (reviseOracle : Nat → Option CodexPromptOutputM) :
    Nat → Nat → CodexPromptOutputM → Option GateOutputM → Bool → List String →
    PipelinePhaseOut
  | 0, _, impl, gate, degraded, errors =>
    ⟨loopExitResult impl gate degraded errors, [], 0⟩
  | fuel + 1, iteration, impl, _, degraded, errors =>
    match gateOracle iteration with
    | none =>
      ⟨{ implementer := some impl, gate := none, gate_verdict := "FAIL",
         final_codex_prompt := none, degraded := true,
         errors := errors ++ ["invalid_json:gate"] }, [], 1⟩
    | some g =>
      if g.verdict = "PASS" then
        ⟨{ implementer := some impl, gate := some g, gate_verdict := "PASS",
           final_codex_prompt := some impl.final_codex_prompt,
           degraded := degraded, errors := errors }, [], 1⟩
      else if fuel = 0 then
        -- `iteration >= max_iterations - 1`: break out of the loop.
        ⟨loopExitResult impl (some g) degraded errors, [], 1⟩
      else
        match reviseOracle iteration with
        | none =>
          ⟨loopExitResult impl (some g) true (errors ++ ["invalid_json:implementer"]),
           [], 1⟩
        | some impl' =>
          let v := enforceScopePaths sc impl'
          if v.isEmpty then
            let r := gateLoop sc gateOracle reviseOracle fuel (iteration + 1)
              impl' (some g) degraded errors
            ⟨r.result, r.steps, r.gateCalls + 1⟩
          else
            ⟨loopExitResult impl' (some (synthGate sc v)) true
               (errors ++ ["scope_violation"]), [deterministicStep], 1⟩

/-- Runner.py:370-421 followed by the gate loop: the deterministic scope
check right after the implementer phase, then the iteration loop. -/
def afterImplementer (sc : ScopeContractM) (impl : CodexPromptOutputM)
    (gateOracle : Nat → Option GateOutputM)
    (reviseOracle : Nat → Option CodexPromptOutputM)
    (maxIterations : Nat) (degraded : Bool) (errors : List String) :
    PipelinePhaseOut :=
  let v := enforceScopePaths sc impl
  if v.isEmpty then
    gateLoop sc gateOracle reviseOracle maxIterations 0 impl none degraded errors
  else
    ⟨{ implementer := some impl
       gate := some (synthGate sc v)
       gate_verdict := "FAIL"
       final_codex_prompt := none
       degraded := true
       errors := errors ++ ["scope_violation"] },
     [deterministicStep], 0⟩

/-- Embeds `_clamp_max_iterations` — identical validators on `CouncilPipelineInput`
(mcp/types.py:110-118) and `CouncilPipelineHttpInput` (mcp/types.py:178-185). -/
def clampMaxIterations (v : Int) : Int :=
  if v < 1 then 1
  else if v > 4 then 4
  else v

/-! ### Aggregate ranking (`backend/src/engine/council.py:177-204`)
Python floats are modelled as exact rationals; `round(x, n)` is Python's
round-half-to-even carried out at the decimal level. -/

/-- Python's `round` to an integer: nearest, ties to even. -/
def roundHalfEven (x : ℚ) : ℤ :=
  let f := ⌊x⌋
  let r := x - f
  if r < 1/2 then f
  else if 1/2 < r then f + 1
  else if f % 2 = 0 then f else f + 1

/-- Python's `round(x, n)` on our rational model of floats. -/
def roundTo (n : Nat) (x : ℚ) : ℚ :=
  (roundHalfEven (x * 10 ^ n) : ℚ) / 10 ^ n

/-- One stage-2 judgement as consumed by `calculate_aggregate_rankings`. -/
structure Stage2ResultM where
  model : String
  valid : Bool
  parsed_ranking : List String
deriving DecidableEq, Repr

/-- One output row of `calculate_aggregate_rankings`. -/
structure AggEntryM where
  model : String
  average_rank : ℚ
  rankings_count : Nat
deriving DecidableEq, Repr

/-- Models `defaultdict(list)` keyed by model, as an insertion-ordered assoc list:
append `p` to `m`'s list, creating the key at the end on first use. -/
def addPos (m : String) (p : Nat) : List (String × List Nat) → List (String × List Nat)
  | [] => [(m, [p])]
  | (k, ps) :: rest =>
    if k = m then (k, ps ++ [p]) :: rest
    else (k, ps) :: addPos m p rest

/-- Accumulate one ranking: `for position, label in enumerate(parsed_ranking,
start=1): if label in label_to_model: ...append(position)`. -/
def addRanking (labelToModel : List (String × String)) :
    List (String × List Nat) → Nat → List String → List (String × List Nat)
  | mp, _, [] => mp
  | mp, pos, label :: rest =>
    let mp' := match labelToModel.lookup label with
      | some m => addPos m pos mp
      | none => mp
    addRanking labelToModel mp' (pos + 1) rest

/-- The filter at the top of the loop: only `valid == True` judgements with a
non-empty list ranking contribute. -/
def rankingCounts (stage2 : List Stage2ResultM) (labelToModel : List (String × String)) :
    List (String × List Nat) :=
  stage2.foldl
    (fun mp r =>
      if r.valid && !r.parsed_ranking.isEmpty then
        addRanking labelToModel mp 1 r.parsed_ranking
      else mp)
    []

/-- Stable insertion (after existing entries with a key `≤` the new key),
matching Python's stable `list.sort(key=...)`. -/
def insertByRank (e : AggEntryM) : List AggEntryM → List AggEntryM
  | [] => [e]
  | x :: xs =>
    if x.average_rank ≤ e.average_rank then x :: insertByRank e xs
    else e :: x :: xs

/-- Stable sort ascending by `average_rank`. -/
def sortByRank (l : List AggEntryM) : List AggEntryM :=
  l.foldl (fun acc e => insertByRank e acc) []

/-- Embeds `calculate_aggregate_rankings` (council.py:177-204): accumulate 1-indexed
positions per model, build `{model, average_rank, rankings_count}` rows with
`average_rank = round(mean, 2)`, and sort ascending by `average_rank`. -/
def calculateAggregateRankings (stage2 : List Stage2ResultM)
    (labelToModel : List (String × String)) : List AggEntryM :=
  let mp := rankingCounts stage2 labelToModel
  let aggregate := (mp.filter (fun kv => !kv.2.isEmpty)).map (fun kv =>
    { model := kv.1
      average_rank := roundTo 2 ((kv.2.sum : ℚ) / (kv.2.length : ℚ))
      rankings_count := kv.2.length })
  sortByRank aggregate

/-! ### Upstream model client (`backend/src/engine/openrouter.py`)

`query_model` is embedded as a pure function over
* a response oracle `responses : Nat → HttpOutcome` giving the outcome of
  the HTTP POST at each internal attempt,
* a jitter oracle `rand : Nat → ℚ` standing for `random.random()` at each
  attempt, and
* two wall-clock readings `tEntry`/`tAuth` for the two `time.time()` calls.
It returns the result, the new `_AUTH_INVALID_UNTIL`, and a trace recording
the number of POSTs issued, the backoff sleeps, and whether the concurrency
semaphore permit was taken. -/

/-- A provider `usage` JSON object, as an assoc list of integer fields
(`None` is modelled by the key being absent). -/
def UsageJson := List (String × Int)
deriving DecidableEq, Repr

/-- Python truthiness of `usage and isinstance(usage, dict)`:
present and a non-empty dict. -/
def usageTruthy : Option UsageJson → Bool
  | none => false
  | some u => !(List.isEmpty u)

/-- Embeds `usage.get(key)`. -/
def usageGet (u : UsageJson) (key : String) : Option Int :=
  (List.lookup key u)

structure ORConfig where
  maxRetries : Nat
  retryBase : ℚ
  authCooldown : Nat
deriving Repr

/-- What one HTTP POST attempt produced: a response with a status code
(carrying the parsed content/usage used on the 2xx path and the error body
text used on the >=400 path), or a transport exception. -/
inductive HttpOutcome where
  | resp (status : Nat) (content : Option String) (usage : Option UsageJson) (errBody : String)
  | exc (msg : String)

/-- The fields of `OpenRouterResult` the claims observe. -/
structure ORResult where
  ok : Bool
  content : Option String
  usage : Option UsageJson
  status_code : Option Nat
  error_text : Option String

/-- Trace of externally observable effects of one `query_model` call. -/
structure CallTrace where
  requests : Nat
  sleeps : List ℚ
  permitUsed : Bool

/-- A failed `OpenRouterResult` (all failure constructions in `query_model`
have `content=None, usage=None`). -/
def failResult (status : Option Nat) (err : String) : ORResult :=
  { ok := false, content := none, usage := none, status_code := status,
    error_text := some err }

/-- Embeds `_should_retry` (openrouter.py:62-69) for a present status code. -/
def shouldRetry (status : Nat) : Bool :=
  status = 429 || (500 ≤ status && status ≤ 599)

/-- The backoff sleep before retrying internal attempt `a + 1`:
`base = RETRY_BASE * 2**a; sleep(base + random.random() * base)`. -/
def sleepAt (cfg : ORConfig) (rand : Nat → ℚ) (a : Nat) : ℚ :=
  cfg.retryBase * 2 ^ a + rand a * (cfg.retryBase * 2 ^ a)

/-- The retry loop of `query_model` (openrouter.py:115-214).  `fuel` is the
number of remaining iterations of `for http_attempt in range(max_retries+1)`;
`a` is the current `http_attempt`.  Returns the result, the new value of
`_AUTH_INVALID_UNTIL` when written, the sleeps performed, and the number of
POSTs issued. -/
def qmLoop (cfg : ORConfig) (tAuth : Nat) (responses : Nat → HttpOutcome)
    (rand : Nat → ℚ) :
    Nat → Nat → Option String → ORResult × Option Nat × List ℚ × Nat
  | 0, _, lastError =>
    (failResult none (lastError.getD "Unknown OpenRouter error"), none, [], 0)
  | fuel + 1, a, _ =>
    match responses a with
    | .exc msg =>
      let err := "Error querying model: " ++ msg
      if fuel ≠ 0 then
        let sleep := sleepAt cfg rand a
        let r := qmLoop cfg tAuth responses rand fuel (a + 1) (some err)
        (r.1, r.2.1, sleep :: r.2.2.1, r.2.2.2 + 1)
      else (failResult none err, none, [], 1)
    | .resp status content usage errBody =>
      if status = 401 ∨ status = 403 then
        (failResult (some status) ("OpenRouter auth error " ++ toString status),
         some (tAuth + max 1 cfg.authCooldown), [], 1)
      else if 400 ≤ status then
        let err := "OpenRouter HTTP " ++ toString status ++ ": " ++ errBody
        if fuel ≠ 0 ∧ shouldRetry status then
          let sleep := sleepAt cfg rand a
          let r := qmLoop cfg tAuth responses rand fuel (a + 1) (some err)
          (r.1, r.2.1, sleep :: r.2.2.1, r.2.2.2 + 1)
        else (failResult (some status) err, none, [], 1)
      else
        ({ ok := true, content := content, usage := usage,
           status_code := some status, error_text := none }, none, [], 1)

/-- Embeds `query_model` (openrouter.py:72-214).  `authUntil` is the incoming
`_AUTH_INVALID_UNTIL`; the second component of the output is its new value. -/
def queryModel (cfg : ORConfig) (authUntil tEntry tAuth : Nat)
    (responses : Nat → HttpOutcome) (rand : Nat → ℚ) :
    ORResult × Nat × CallTrace :=
  if tEntry < authUntil then
    (failResult (some 401) "OpenRouter credentials invalid (cooldown)",
     authUntil, { requests := 0, sleeps := [], permitUsed := false })
  else
    let lo := qmLoop cfg tAuth responses rand (cfg.maxRetries + 1) 0 none
    (lo.1, lo.2.1.getD authUntil,
     { requests := lo.2.2.2, sleeps := lo.2.2.1, permitUsed := true })

/-! ### Usage events (`backend/src/services/usage.py`) -/

/-- The recorded `UsageEvent` fields the claims observe. -/
structure UsageEventM where
  model : String
  prompt_tokens : Option Int
  completion_tokens : Option Int
  total_tokens : Option Int
  cost_estimated : Option ℚ
  usage_missing : Bool
deriving DecidableEq, Repr

/-- Embeds `_estimate_cost` (usage.py:14-27); `pricing` models the
`MODEL_PRICING` table as `model ↦ (prompt_per_1m, completion_per_1m)`. -/
def estimateCost (pricing : String → Option (ℚ × ℚ))
    (model : String) (pt ct : Option Int) : Option ℚ :=
  match pricing model with
  | none => none
  | some pr =>
    match pt, ct with
    | none, none => none
    | _, _ =>
      let c1 : ℚ := match pt with | none => 0 | some p => (p : ℚ) / 1000000 * pr.1
      let c2 : ℚ := match ct with | none => 0 | some c => (c : ℚ) / 1000000 * pr.2
      roundTo 8 (c1 + c2)

/-- Python truthiness of `error_text` (an empty string is falsy). -/
def errTruthy : Option String → Bool
  | none => false
  | some s => s ≠ ""

/-- Embeds `UsageService.record_usage_event` (usage.py:34-90), restricted to the
fields of the persisted row that the claims observe. -/
def recordUsageEvent (pricing : String → Option (ℚ × ℚ)) (model : String)
    (usage : Option UsageJson) (error_text : Option String) : UsageEventM :=
  let pt := if usageTruthy usage then usageGet (usage.getD []) "prompt_tokens" else none
  let ct := if usageTruthy usage then usageGet (usage.getD []) "completion_tokens" else none
  let tt := if usageTruthy usage then usageGet (usage.getD []) "total_tokens" else none
  { model := model
    prompt_tokens := pt
    completion_tokens := ct
    total_tokens := tt
    cost_estimated := estimateCost pricing model pt ct
    usage_missing := !usageTruthy usage || errTruthy error_text }

/-! ### Budget gate (`backend/src/services/council_runner.py:32-40,170-186`)
and the budgeted sequential stage-1 loop with the budget-abort envelope
(`council_runner.py:311-314`, `backend/src/tools/handlers.py:258-272`). -/

structure CouncilBudgetM where
  max_total_cost_usd : Option ℚ
  max_total_tokens : Option Int
deriving Repr

/-- Embeds `_usage_totals` (council_runner.py:32-40): returns
`(total_tokens?, total_cost?, tokens_missing, cost_missing)`. -/
def usageTotals (events : List UsageEventM) :
    Option Int × Option ℚ × Bool × Bool :=
  let tv := events.filterMap (fun e => e.total_tokens)
  let cv := events.filterMap (fun e => e.cost_estimated)
  (if tv.isEmpty then none else some tv.sum,
   if cv.isEmpty then none else some (roundTo 8 cv.sum),
   events.any (fun e => e.total_tokens.isNone),
   events.any (fun e => e.cost_estimated.isNone))

/-- The `max_total_cost_usd` clause of `_check_budget`
(council_runner.py:182-186). -/
def checkCostBudget (b : CouncilBudgetM) (events : List UsageEventM) :
    Except String Unit :=
  let t := usageTotals events
  match b.max_total_cost_usd with
  | none => .ok ()
  | some cap =>
    if t.2.2.2 ∨ t.2.1 = none then .error "cost_estimate_missing"
    else if t.2.1.getD 0 > cap then .error "max_total_cost_usd"
    else .ok ()

/-- Embeds `CouncilRunner._check_budget` (council_runner.py:170-186), as the typed
abort it raises (`CouncilBudgetExceeded(reason)`) or unit; a raise in the
token clause skips the cost clause. -/
def checkBudget (budget : Option CouncilBudgetM) (events : List UsageEventM) :
    Except String Unit :=
  match budget with
  | none => .ok ()
  | some b =>
    let t := usageTotals events
    match b.max_total_tokens with
    | none => checkCostBudget b events
    | some cap =>
      if t.2.2.1 ∨ t.1 = none then .error "token_usage_missing"
      else if t.1.getD 0 > cap then .error "max_total_tokens"
      else checkCostBudget b events

/-- The sequential stage-1 loop taken when a budget is set
(council_runner.py:311-314 with `_one`, 275-309): each model call records a
usage event, then the budget is checked; on abort, the remaining models are
never called.  `resp model = (usage, error_text)` is the per-model upstream
outcome.  Returns `.error called` on abort and `.ok called` otherwise, with
`called` the models actually issued. -/
def stage1Budgeted (budget : Option CouncilBudgetM)
    (pricing : String → Option (ℚ × ℚ))
    (resp : String → Option UsageJson × Option String) :
    List String → List UsageEventM → List String →
    Except (List String) (List String)
  | [], _, called => .ok called
  | m :: rest, events, called =>
    let ev := recordUsageEvent pricing m (resp m).1 (resp m).2
    let events' := events ++ [ev]
    let called' := called ++ [m]
    match checkBudget budget events' with
    | .error _ => .error called'
    | .ok _ => stage1Budgeted budget pricing resp rest events' called'

/-- The degraded envelope fields of `council_ask`'s `CouncilBudgetExceeded`
handler (handlers.py:258-272), plus the terminal status passed to
`finish_run` there.  `errors0` is the handler's `errors` list at the moment
the abort is caught. -/
structure AskEnvelopeM where
  final_answer : String
  degraded : Bool
  errors : List String
  run_status : String
deriving DecidableEq, Repr

/-- Embeds the `except CouncilBudgetExceeded:` branch of `council_ask` (handlers.py:258-272). -/
def councilAskOnBudgetAbort (errors0 : List String) : AskEnvelopeM :=
  { final_answer := ""
    degraded := true
    errors := errors0 ++ ["budget_exceeded"]
    run_status := "failed" }

/-- Embeds `council_ask` through its budgeted stage 1: on a budget abort the
handler's `errors` is still `[]` (stage-1 failure errors are appended only
after `stage1` returns), so the envelope comes from
`councilAskOnBudgetAbort []`; otherwise the run continues (abstracted as
`cont`). -/
def councilAskStage1 (budget : Option CouncilBudgetM)
    (pricing : String → Option (ℚ × ℚ))
    (resp : String → Option UsageJson × Option String)
    (models : List String) (cont : List String → AskEnvelopeM) : AskEnvelopeM :=
  match stage1Budgeted budget pricing resp models [] [] with
  | .error _ => councilAskOnBudgetAbort []
  | .ok called => cont called

/-! ### Run ledger (`backend/src/services/runs.py:35-43`) -/

/-- The `Run` row fields written by `end_run`. -/
structure RunRowM where
  status : String
  ended_at : Option Nat
  latency_ms : Option Int
deriving DecidableEq, Repr

/-- Embeds `RunService.end_run` over an assoc-list store keyed by run id: missing
run ⇒ no-op; otherwise `status`, `ended_at := now`, `latency_ms` are all
assigned unconditionally (there is no terminal-state guard in the code). -/
def endRun (store : List (Nat × RunRowM)) (rid : Nat) (status : String)
    (now : Nat) (latency : Option Int) : List (Nat × RunRowM) :=
  match store.lookup rid with
  | none => store
  | some _ =>
    store.map (fun kv =>
      if kv.1 = rid then (kv.1, { status := status, ended_at := some now, latency_ms := latency })
      else kv)

/-! ### Cache-write conditions (`backend/src/services/council_runner.py`)

The stage-1 worker `_one` (lines 256-309) and the stage-2 worker `_judge`
(lines 332-463) are embedded as pure functions of the cache-lookup result,
the upstream result(s), and a parse oracle standing for
`json.loads` + `Stage2JudgeOutput.model_validate`.  Each returns its result
together with the list of cache writes it performs. -/

/-- Result of the stage-2 parse: the validated `final_ranking` on success,
the validation-error string on failure. -/
def ParseOracle := String → Except String (List String)

/-- The cached judgement payload (`out` dict) of stage 2. -/
structure JudgeOutM where
  ranking : String
  parsed_ranking : List String
  parsed_json_present : Bool
  validation_error : Option String
  valid : Bool
deriving DecidableEq, Repr

/-- Embeds `_one` of `stage1` (council_runner.py:256-309): on a cache hit, return
the cached content with no write; otherwise call the model and write the
content to the cache iff `result.ok and result.content is not None`.
Returns `(content?, cache writes)`. -/
def stage1One (cached : Option String) (r : ORResult) :
    Option String × List String :=
  match cached with
  | some content => (some content, [])
  | none =>
    match r.ok, r.content with
    | true, some c => (some c, [c])
    | _, _ => (none, [])

/-- Embeds `_try_parse` of `_judge` plus the `out` fields it determines for one
raw text: parsed ranking, `parsed_json` presence, `validation_error`, and
`valid = validation_error is None and parsed_json is not None and
len(parsed_ranking) > 0`. -/
def judgeParse (parse : ParseOracle) (raw : String) : JudgeOutM :=
  match parse raw with
  | .ok ranking =>
    { ranking := raw, parsed_ranking := ranking, parsed_json_present := true,
      validation_error := none, valid := !ranking.isEmpty }
  | .error e =>
    { ranking := raw, parsed_ranking := [], parsed_json_present := false,
      validation_error := some e, valid := false }

/-- Embeds `_judge` of `stage2` (council_runner.py:332-463) past the cache lookup:
parse attempt 0; if the transport failed return `None`; on a validation
error retry once (re-parsing on a usable retry, else `valid := False` with
the attempt-0 fields).  `first`/`retry` are the two upstream results. -/
def judgeOut (first retry : ORResult) (parse : ParseOracle) : Option JudgeOutM :=
  let out0 := judgeParse parse (first.content.getD "")
  if !first.ok ∨ first.content = none then none
  else
    some (if out0.validation_error = none then out0
      else
        match retry.ok, retry.content with
        | true, some raw1 => judgeParse parse raw1
        | _, _ => { out0 with valid := false })

/-- The tail of `_judge`: build `out` and write it to the cache iff
`out["valid"]` (council_runner.py:454-463).  Returns
`(judgement?, cache writes)`. -/
def judgeStep (first retry : ORResult) (parse : ParseOracle) :
    Option JudgeOutM × List JudgeOutM :=
  match judgeOut first retry parse with
  | none => (none, [])
  | some out => (some out, if out.valid then [out] else [])

/-! ### Concrete sample inputs used by the witnesses -/

/-- A client configuration with the documented defaults
(`OPENROUTER_MAX_RETRIES=2`, `OPENROUTER_RETRY_BASE_SECONDS=0.5`,
`OPENROUTER_AUTH_COOLDOWN_SECONDS=60`). -/
def sampleCfg : ORConfig := { maxRetries := 2, retryBase := 1/2, authCooldown := 60 }

/-- An upstream that always answers 401. -/
def resp401 : Nat → HttpOutcome := fun _ => .resp 401 none none ""

/-- An upstream that always answers a non-retryable 402. -/
def resp402 : Nat → HttpOutcome := fun _ => .resp 402 none none "payment"

/-- An upstream that always answers a retryable 500. -/
def resp500 : Nat → HttpOutcome := fun _ => .resp 500 none none "boom"

/-- A zero-jitter `random.random()` oracle. -/
def randZero : Nat → ℚ := fun _ => 0

/-- A pricing table with no entries. -/
def noPricing : String → Option (ℚ × ℚ) := fun _ => none

/-- A per-model upstream outcome where every call reports 2 total tokens. -/
def respTwoTokens : String → Option UsageJson × Option String :=
  fun _ => (some [("prompt_tokens", 1), ("completion_tokens", 1), ("total_tokens", 2)], none)

/-- A scope contract whose single `in_scope` entry is a file path. -/
def sampleScope : ScopeContractM :=
  { in_scope := ["backend/src/foo.py"], acceptance_criteria := ["works"],
    tests_policy := { required := false } }

/-- An implementer output that touches a file outside the scope. -/
def sampleImplOut : CodexPromptOutputM :=
  { final_codex_prompt := "p", patch_scope := ["backend/src/foo.py", "backend/src/bar.py"] }

/-- A scope contract whose `in_scope` entries are all URLs. -/
def urlScope : ScopeContractM :=
  { in_scope := ["http://a", "https://b/c"], acceptance_criteria := [],
    tests_policy := { required := false } }

/-- A gate oracle that always passes. -/
def passGateOracle : Nat → Option GateOutputM :=
  fun _ => some { verdict := "PASS", must_fix := [], acceptance_criteria_met := [], tests_required := false }

/-- A gate oracle / revision oracle that always fails to produce JSON. -/
def noneGateOracle : Nat → Option GateOutputM := fun _ => none

/-- A revision oracle that always fails to produce JSON. -/
def noneReviseOracle : Nat → Option CodexPromptOutputM := fun _ => none

/-- A successful upstream result carrying content `"raw"`. -/
def okContentResult : ORResult :=
  { ok := true, content := some "raw", usage := none, status_code := some 200,
    error_text := none }

/-- A transport-failed upstream result. -/
def failedResultSample : ORResult := failResult none "transport error"

/-- A parse oracle that validates everything with ranking `["Response A"]`. -/
def parseRankingA : ParseOracle := fun _ => .ok ["Response A"]

/-- The judgement `judgeStep` builds from `okContentResult` under
`parseRankingA`. -/
def judgeOutA : JudgeOutM :=
  { ranking := "raw", parsed_ranking := ["Response A"], parsed_json_present := true,
    validation_error := none, valid := true }

/-! ## Theorems -/

/-- C9: `max_iterations` validation clamps every integer into `[1,4]`:
values below 1 become 1, values above 4 become 4 (`10 → 4`, `0 → 1`), and
values already in `[1,4]` pass through unchanged. -/
theorem C9_clamp_max_iterations (v : Int) :
    (v < 1 → clampMaxIterations v = 1) ∧
    (v > 4 → clampMaxIterations v = 4) ∧
    (1 ≤ v → v ≤ 4 → clampMaxIterations v = v) ∧
    clampMaxIterations 10 = 4 ∧ clampMaxIterations 0 = 1 := by
  refine ⟨fun h => ?_, fun h => ?_, fun h1 h2 => ?_, by decide, by decide⟩ <;>
    · unfold clampMaxIterations
      split_ifs <;> omega

theorem C9_clamp_max_iterations_witness :
    clampMaxIterations 0 = 1 ∧ clampMaxIterations 10 = 4 ∧ clampMaxIterations 3 = 3 :=
  ⟨(C9_clamp_max_iterations 0).1 (by decide),
   (C9_clamp_max_iterations 10).2.1 (by decide),
   (C9_clamp_max_iterations 3).2.2.1 (by decide) (by decide)⟩

/-- Helper: looking up `rid` after rewriting every `rid` entry. -/
theorem lookup_map_update (store : List (Nat × RunRowM)) (rid : Nat) (row' : RunRowM)
    (h : (store.lookup rid).isSome) :
    (store.map (fun kv => if kv.1 = rid then (kv.1, row') else kv)).lookup rid =
      some row' := by
  induction store with
  | nil => simp [List.lookup] at h
  | cons kv rest ih =>
    rw [List.map_cons]
    by_cases hk : kv.1 = rid
    · rw [if_pos hk]
      simp [List.lookup, hk]
    · rw [if_neg hk]
      have hbeq : (rid == kv.1) = false := by
        simp only [beq_eq_false_iff_ne, ne_eq]
        exact fun he => hk he.symm
      have h' : (rest.lookup rid).isSome := by
        simpa [List.lookup, hbeq] using h
      simpa [List.lookup, hbeq] using ih h'

/-- Helper: `end_run` on a present run writes the new terminal fields. -/
theorem endRun_lookup_present (store : List (Nat × RunRowM)) (rid : Nat)
    (status : String) (now : Nat) (latency : Option Int)
    (h : (store.lookup rid).isSome) :
    (endRun store rid status now latency).lookup rid =
      some { status := status, ended_at := some now, latency_ms := latency } := by
  rcases hl : store.lookup rid with _ | row
  · rw [hl] at h; simp at h
  · unfold endRun
    rw [hl]
    exact lookup_map_update store rid _ (by simp [hl])

/-- C4 (amended): `end_run` is not one-shot.  Every call on an existing run
unconditionally assigns `status`, `ended_at` and `latency_ms` (last write
wins), so a second `end_run` on the same run overwrites the first terminal
status and `ended_at`; only a call on a missing run id is a no-op. -/
theorem C4_end_run_last_write_wins (store : List (Nat × RunRowM)) (rid : Nat)
    (s1 s2 : String) (t1 t2 : Nat) (l1 l2 : Option Int)
    (h : (store.lookup rid).isSome) :
    ((endRun store rid s1 t1 l1).lookup rid =
        some { status := s1, ended_at := some t1, latency_ms := l1 }) ∧
    ((endRun (endRun store rid s1 t1 l1) rid s2 t2 l2).lookup rid =
        some { status := s2, ended_at := some t2, latency_ms := l2 }) ∧
    (∀ st : List (Nat × RunRowM), (st.lookup rid).isNone →
        endRun st rid s2 t2 l2 = st) := by
  have h1 := endRun_lookup_present store rid s1 t1 l1 h
  refine ⟨h1, ?_, ?_⟩
  · exact endRun_lookup_present _ rid s2 t2 l2 (by simp [h1])
  · intro st hst
    unfold endRun
    rcases hl : st.lookup rid with _ | row
    · rfl
    · rw [hl] at hst; simp at hst

theorem C4_end_run_last_write_wins_witness :
    ((endRun [(0, { status := "running", ended_at := none, latency_ms := none })]
        0 "succeeded" 100 (some 5)).lookup 0 =
      some { status := "succeeded", ended_at := some 100, latency_ms := some 5 }) ∧
    ((endRun (endRun [(0, { status := "running", ended_at := none, latency_ms := none })]
        0 "succeeded" 100 (some 5)) 0 "failed" 200 (some 7)).lookup 0 =
      some { status := "failed", ended_at := some 200, latency_ms := some 7 }) :=
  ⟨(C4_end_run_last_write_wins _ 0 "succeeded" "failed" 100 200 (some 5) (some 7)
      (by decide)).1,
   (C4_end_run_last_write_wins _ 0 "succeeded" "failed" 100 200 (some 5) (some 7)
      (by decide)).2.1⟩

/-- C4 (counterexample): the claim says a second `end_run` is a no-op, but a
second call on an already-terminal run replaces both the terminal status and
`ended_at`. -/
theorem C4_end_run_counterexample :
    (endRun (endRun [(0, { status := "running", ended_at := none, latency_ms := none })]
        0 "succeeded" 100 (some 5)) 0 "failed" 200 (some 7)).lookup 0 ≠
      (endRun [(0, { status := "running", ended_at := none, latency_ms := none })]
        0 "succeeded" 100 (some 5)).lookup 0 := by
  decide

/-- C5: while the auth-cooldown deadline is in the future, `query_model`
returns `ok=false, status_code=401` without taking a semaphore permit and
without issuing any POST; and on an upstream 401/403, the cooldown deadline
becomes `now + auth_cooldown_seconds` (for any cooldown ≥ 1 second, as the
code floors the cooldown at 1) and the call fails immediately after that
single POST, with no retry sleep. -/
theorem C5_auth_cooldown (cfg : ORConfig) (authUntil tEntry tAuth : Nat)
    (responses : Nat → HttpOutcome) (rand : Nat → ℚ) :
    (tEntry < authUntil →
      queryModel cfg authUntil tEntry tAuth responses rand =
        (failResult (some 401) "OpenRouter credentials invalid (cooldown)",
         authUntil, { requests := 0, sleeps := [], permitUsed := false })) ∧
    (¬ tEntry < authUntil →
      ∀ status content usage errBody,
        responses 0 = .resp status content usage errBody →
        status = 401 ∨ status = 403 →
        1 ≤ cfg.authCooldown →
        queryModel cfg authUntil tEntry tAuth responses rand =
          (failResult (some status) ("OpenRouter auth error " ++ toString status),
           tAuth + cfg.authCooldown,
           { requests := 1, sleeps := [], permitUsed := true })) := by
  constructor
  · intro h
    simp [queryModel, h]
  · intro h status content usage errBody hresp hauth hcd
    have hmax : max 1 cfg.authCooldown = cfg.authCooldown := Nat.max_eq_right hcd
    simp [queryModel, if_neg h, qmLoop, hresp, if_pos hauth, hmax]

theorem C5_auth_cooldown_witness :
    (queryModel sampleCfg 10 5 0 resp401 randZero =
      (failResult (some 401) "OpenRouter credentials invalid (cooldown)",
       10, { requests := 0, sleeps := [], permitUsed := false })) ∧
    (queryModel sampleCfg 0 0 7 resp401 randZero =
      (failResult (some 401) "OpenRouter auth error 401",
       7 + 60, { requests := 1, sleeps := [], permitUsed := true })) :=
  ⟨(C5_auth_cooldown sampleCfg 10 5 0 resp401 randZero).1 (by decide),
   (C5_auth_cooldown sampleCfg 0 0 7 resp401 randZero).2 (by decide)
     401 none none "" rfl (Or.inl rfl) (by decide)⟩

/-- Helper: trace shape of the retry loop — at most `fuel - 1` sleeps and
`fuel` POSTs, and the `k`-th sleep (0-indexed from internal attempt `a`) is
exactly `sleepAt (a + k)`. -/
theorem qmLoop_trace (cfg : ORConfig) (tAuth : Nat) (responses : Nat → HttpOutcome)
    (rand : Nat → ℚ) :
    ∀ fuel a lastErr,
      (qmLoop cfg tAuth responses rand fuel a lastErr).2.2.1.length ≤ fuel - 1 ∧
      (qmLoop cfg tAuth responses rand fuel a lastErr).2.2.2 ≤ fuel ∧
      (∀ k, k < (qmLoop cfg tAuth responses rand fuel a lastErr).2.2.1.length →
        (qmLoop cfg tAuth responses rand fuel a lastErr).2.2.1[k]? =
          some (sleepAt cfg rand (a + k))) := by
  intro fuel
  induction fuel with
  | zero =>
    intro a lastErr
    refine ⟨by simp [qmLoop], by simp [qmLoop], ?_⟩
    intro k hk
    simp [qmLoop] at hk
  | succ fuel ih =>
    intro a lastErr
    rcases hr : responses a with ⟨status, content, usage, errBody⟩ | msg
    · by_cases h401 : status = 401 ∨ status = 403
      · refine ⟨?_, ?_, ?_⟩ <;> simp [qmLoop, hr, h401]
      · by_cases h400 : 400 ≤ status
        · by_cases hretry : fuel ≠ 0 ∧ shouldRetry status
          · have h3 := ih (a + 1) (some ("OpenRouter HTTP " ++ toString status ++ ": " ++ errBody))
            refine ⟨?_, ?_, ?_⟩
            · simp only [qmLoop, hr, if_neg h401, if_pos h400, if_pos hretry]
              simp only [List.length_cons]
              omega
            · simp only [qmLoop, hr, if_neg h401, if_pos h400, if_pos hretry]
              omega
            · intro k hk
              simp only [qmLoop, hr, if_neg h401, if_pos h400, if_pos hretry] at hk ⊢
              match k with
              | 0 => simp
              | k + 1 =>
                simp only [List.getElem?_cons_succ]
                rw [h3.2.2 k (by simpa using hk)]
                congr 2
                omega
          · refine ⟨?_, ?_, ?_⟩ <;>
              simp [qmLoop, hr, h401, h400, hretry]
        · refine ⟨?_, ?_, ?_⟩ <;>
            simp [qmLoop, hr, h401, h400]
    · by_cases hf : fuel ≠ 0
      · have h3 := ih (a + 1) (some ("Error querying model: " ++ msg))
        refine ⟨?_, ?_, ?_⟩
        · simp only [qmLoop, hr, if_pos hf, List.length_cons]
          omega
        · simp only [qmLoop, hr, if_pos hf]
          omega
        · intro k hk
          simp only [qmLoop, hr, if_pos hf] at hk ⊢
          match k with
          | 0 => simp
          | k + 1 =>
            simp only [List.getElem?_cons_succ]
            rw [h3.2.2 k (by simpa using hk)]
            congr 2
            omega
      · refine ⟨?_, ?_, ?_⟩ <;> simp [qmLoop, hr, hf]

/-- Helper: with full jitter `rand ∈ [0,1)` and a positive base, the backoff
sleep at internal attempt `a` lies in `[base·2^a, 2·base·2^a)`. -/
theorem sleepAt_bounds (cfg : ORConfig) (rand : Nat → ℚ)
    (hrand : ∀ i, 0 ≤ rand i ∧ rand i < 1) (hbase : 0 < cfg.retryBase) (a : Nat) :
    cfg.retryBase * 2 ^ a ≤ sleepAt cfg rand a ∧
    sleepAt cfg rand a < 2 * (cfg.retryBase * 2 ^ a) := by
  have hx : (0:ℚ) < cfg.retryBase * 2 ^ a := by positivity
  obtain ⟨h0, h1⟩ := hrand a
  constructor
  · simp only [sleepAt]
    nlinarith
  · simp only [sleepAt]
    nlinarith

/-- C8: every backoff sleep before retrying internal attempt `a + 1` lies in
the half-open interval `[base·2^a, 2·base·2^a)` (so for `base = 1/2` the
sleeps before the first and second retries lie in `[1/2, 1)` and `[1, 2)`),
and at most `max_retries` retries / `max_retries + 1` POSTs occur. -/
theorem C8_backoff (cfg : ORConfig) (authUntil tEntry tAuth : Nat)
    (responses : Nat → HttpOutcome) (rand : Nat → ℚ)
    (hrand : ∀ i, 0 ≤ rand i ∧ rand i < 1) (hbase : 0 < cfg.retryBase) :
    (∀ k s, ((queryModel cfg authUntil tEntry tAuth responses rand).2.2.sleeps)[k]? = some s →
      cfg.retryBase * 2 ^ k ≤ s ∧ s < 2 * (cfg.retryBase * 2 ^ k)) ∧
    (queryModel cfg authUntil tEntry tAuth responses rand).2.2.sleeps.length ≤ cfg.maxRetries ∧
    (queryModel cfg authUntil tEntry tAuth responses rand).2.2.requests ≤ cfg.maxRetries + 1 ∧
    (cfg.retryBase = 1/2 →
      (∀ s, ((queryModel cfg authUntil tEntry tAuth responses rand).2.2.sleeps)[0]? = some s →
        1/2 ≤ s ∧ s < 1) ∧
      (∀ s, ((queryModel cfg authUntil tEntry tAuth responses rand).2.2.sleeps)[1]? = some s →
        1 ≤ s ∧ s < 2)) := by
  have hmain : (∀ k s,
      ((queryModel cfg authUntil tEntry tAuth responses rand).2.2.sleeps)[k]? = some s →
        cfg.retryBase * 2 ^ k ≤ s ∧ s < 2 * (cfg.retryBase * 2 ^ k)) ∧
      (queryModel cfg authUntil tEntry tAuth responses rand).2.2.sleeps.length ≤ cfg.maxRetries ∧
      (queryModel cfg authUntil tEntry tAuth responses rand).2.2.requests ≤ cfg.maxRetries + 1 := by
    by_cases hcd : tEntry < authUntil
    · refine ⟨?_, ?_, ?_⟩ <;> simp [queryModel, hcd]
    · have hsl : (queryModel cfg authUntil tEntry tAuth responses rand).2.2.sleeps =
          (qmLoop cfg tAuth responses rand (cfg.maxRetries + 1) 0 none).2.2.1 := by
        simp [queryModel, hcd]
      have hrq : (queryModel cfg authUntil tEntry tAuth responses rand).2.2.requests =
          (qmLoop cfg tAuth responses rand (cfg.maxRetries + 1) 0 none).2.2.2 := by
        simp [queryModel, hcd]
      have ht := qmLoop_trace cfg tAuth responses rand (cfg.maxRetries + 1) 0 none
      refine ⟨?_, ?_, ?_⟩
      · intro k s hks
        rw [hsl] at hks
        by_cases hk : k < (qmLoop cfg tAuth responses rand (cfg.maxRetries + 1) 0 none).2.2.1.length
        · have := ht.2.2 k hk
          rw [this] at hks
          have hs : s = sleepAt cfg rand k := by
            have := Option.some.inj hks
            simpa using this.symm
          rw [hs]
          exact sleepAt_bounds cfg rand hrand hbase k
        · rw [List.getElem?_eq_none (Nat.le_of_not_lt hk)] at hks
          cases hks
      · rw [hsl]
        simpa using ht.1
      · rw [hrq]
        exact ht.2.1
  refine ⟨hmain.1, hmain.2.1, hmain.2.2, fun hb => ⟨?_, ?_⟩⟩
  · intro s hs
    have h := hmain.1 0 s hs
    rw [hb] at h
    constructor
    · have := h.1
      norm_num at this ⊢
      exact this
    · have := h.2
      norm_num at this ⊢
      exact this
  · intro s hs
    have h := hmain.1 1 s hs
    rw [hb] at h
    constructor
    · have := h.1
      norm_num at this ⊢
      exact this
    · have := h.2
      norm_num at this ⊢
      exact this

theorem C8_backoff_witness :
    (queryModel sampleCfg 0 0 0 resp500 randZero).2.2.sleeps.length ≤ 2 ∧
    (queryModel sampleCfg 0 0 0 resp500 randZero).2.2.requests ≤ 3 :=
  ⟨(C8_backoff sampleCfg 0 0 0 resp500 randZero
      (fun _ => ⟨le_refl 0, zero_lt_one⟩) one_half_pos).2.1,
   (C8_backoff sampleCfg 0 0 0 resp500 randZero
      (fun _ => ⟨le_refl 0, zero_lt_one⟩) one_half_pos).2.2.1⟩

/-- Helper: appending to a non-empty string stays non-empty. -/
theorem append_ne_empty (s t : String) (hs : s ≠ "") : s ++ t ≠ "" := by
  intro h
  have hd := congrArg String.data h
  rw [String.data_append] at hd
  have h2 : s.data = [] := (List.append_eq_nil.mp hd).1
  exact hs (String.ext h2)

/-- Helper: every result of the retry loop has a usage block only on the
success path (where `error_text` is `None`), and every `error_text` it
produces is a non-empty string. -/
theorem qmLoop_result_invariants (cfg : ORConfig) (tAuth : Nat)
    (responses : Nat → HttpOutcome) (rand : Nat → ℚ) :
    ∀ fuel a lastErr, (∀ s, lastErr = some s → s ≠ "") →
      ((qmLoop cfg tAuth responses rand fuel a lastErr).1.usage ≠ none →
        (qmLoop cfg tAuth responses rand fuel a lastErr).1.ok = true ∧
        (qmLoop cfg tAuth responses rand fuel a lastErr).1.error_text = none) ∧
      (∀ s, (qmLoop cfg tAuth responses rand fuel a lastErr).1.error_text = some s →
        s ≠ "") := by
  intro fuel
  induction fuel with
  | zero =>
    intro a lastErr hlast
    constructor
    · intro hu
      simp [qmLoop, failResult] at hu
    · intro s hs
      simp only [qmLoop, failResult] at hs
      cases hl : lastErr with
      | none =>
        rw [hl] at hs
        simp at hs
        rw [← hs]
        decide
      | some t =>
        rw [hl] at hs
        simp at hs
        rw [← hs]
        exact hlast t hl
  | succ fuel ih =>
    intro a lastErr hlast
    rcases hr : responses a with ⟨status, content, usage, errBody⟩ | msg
    · by_cases h401 : status = 401 ∨ status = 403
      · constructor
        · intro hu
          simp [qmLoop, hr, h401, failResult] at hu
        · intro s hs
          simp only [qmLoop, hr, if_pos h401, failResult] at hs
          simp at hs
          rw [← hs]
          exact append_ne_empty _ _ (by decide)
      · by_cases h400 : 400 ≤ status
        · by_cases hretry : fuel ≠ 0 ∧ shouldRetry status
          · have hok : ∀ s, some ("OpenRouter HTTP " ++ toString status ++ ": " ++ errBody) = some s → s ≠ "" := by
              intro s hs
              have := Option.some.inj hs
              rw [← this]
              exact append_ne_empty ("OpenRouter HTTP " ++ toString status ++ ": ") errBody
                (append_ne_empty ("OpenRouter HTTP " ++ toString status) ": "
                  (append_ne_empty "OpenRouter HTTP " (toString status) (by decide)))
            have h3 := ih (a + 1) (some ("OpenRouter HTTP " ++ toString status ++ ": " ++ errBody)) hok
            constructor
            · intro hu
              simp only [qmLoop, hr, if_neg h401, if_pos h400, if_pos hretry] at hu ⊢
              exact h3.1 hu
            · intro s hs
              simp only [qmLoop, hr, if_neg h401, if_pos h400, if_pos hretry] at hs
              exact h3.2 s hs
          · constructor
            · intro hu
              simp [qmLoop, hr, h401, h400, hretry, failResult] at hu
            · intro s hs
              simp only [qmLoop, hr, if_neg h401, if_pos h400, if_neg hretry, failResult] at hs
              simp at hs
              rw [← hs]
              exact append_ne_empty ("OpenRouter HTTP " ++ toString status ++ ": ") errBody
                (append_ne_empty ("OpenRouter HTTP " ++ toString status) ": "
                  (append_ne_empty "OpenRouter HTTP " (toString status) (by decide)))
        · constructor
          · intro hu
            simp [qmLoop, hr, h401, h400]
          · intro s hs
            simp [qmLoop, hr, h401, h400] at hs
    · by_cases hf : fuel ≠ 0
      · have hok : ∀ s, some ("Error querying model: " ++ msg) = some s → s ≠ "" := by
          intro s hs
          have := Option.some.inj hs
          rw [← this]
          exact append_ne_empty _ _ (by decide)
        have h3 := ih (a + 1) (some ("Error querying model: " ++ msg)) hok
        constructor
        · intro hu
          simp only [qmLoop, hr, if_pos hf] at hu ⊢
          exact h3.1 hu
        · intro s hs
          simp only [qmLoop, hr, if_pos hf] at hs
          exact h3.2 s hs
      · constructor
        · intro hu
          simp [qmLoop, hr, hf, failResult] at hu
        · intro s hs
          simp only [qmLoop, hr, if_neg hf, failResult] at hs
          simp at hs
          rw [← hs]
          exact append_ne_empty _ _ (by decide)

/-- Helper: the client-call invariants lifted to `query_model`. -/
theorem queryModel_result_invariants (cfg : ORConfig) (authUntil tEntry tAuth : Nat)
    (responses : Nat → HttpOutcome) (rand : Nat → ℚ) :
    ((queryModel cfg authUntil tEntry tAuth responses rand).1.usage ≠ none →
      (queryModel cfg authUntil tEntry tAuth responses rand).1.ok = true ∧
      (queryModel cfg authUntil tEntry tAuth responses rand).1.error_text = none) ∧
    (∀ s, (queryModel cfg authUntil tEntry tAuth responses rand).1.error_text = some s →
      s ≠ "") := by
  by_cases hcd : tEntry < authUntil
  · constructor
    · intro hu
      simp [queryModel, hcd, failResult] at hu
    · intro s hs
      simp only [queryModel, if_pos hcd, failResult] at hs
      simp at hs
      rw [← hs]
      decide
  · have h := qmLoop_result_invariants cfg tAuth responses rand (cfg.maxRetries + 1) 0 none
      (by intro s hs; cases hs)
    constructor
    · intro hu
      rw [show (queryModel cfg authUntil tEntry tAuth responses rand).1 =
          (qmLoop cfg tAuth responses rand (cfg.maxRetries + 1) 0 none).1 by
        simp [queryModel, hcd]] at hu ⊢
      exact h.1 hu
    · intro s hs
      rw [show (queryModel cfg authUntil tEntry tAuth responses rand).1 =
          (qmLoop cfg tAuth responses rand (cfg.maxRetries + 1) 0 none).1 by
        simp [queryModel, hcd]] at hs
      exact h.2 s hs

/-- Helper: `record_usage_event` invariants under the client's result
discipline (a usage block implies no error; error strings are non-empty). -/
theorem recordUsage_invariants_of (pricing : String → Option (ℚ × ℚ))
    (model : String) (usage : Option UsageJson) (error_text : Option String)
    (hex : usage ≠ none → error_text = none)
    (hne : ∀ s, error_text = some s → s ≠ "") :
    ((recordUsageEvent pricing model usage error_text).usage_missing = true →
      (recordUsageEvent pricing model usage error_text).prompt_tokens = none ∧
      (recordUsageEvent pricing model usage error_text).completion_tokens = none ∧
      (recordUsageEvent pricing model usage error_text).total_tokens = none) ∧
    ((recordUsageEvent pricing model usage error_text).usage_missing = true ↔
      (usageTruthy usage = false ∨ error_text ≠ none)) := by
  constructor
  · intro hm
    by_cases ht : usageTruthy usage
    · exfalso
      have husage : usage ≠ none := by
        cases h : usage with
        | none => rw [h] at ht; simp [usageTruthy] at ht
        | some u => simp
      have herr := hex husage
      simp [recordUsageEvent, ht, herr, errTruthy] at hm
    · simp only [Bool.not_eq_true] at ht
      simp [recordUsageEvent, ht]
  · constructor
    · intro hm
      simp only [recordUsageEvent, Bool.or_eq_true, Bool.not_eq_true'] at hm
      rcases hm with h | h
      · exact Or.inl h
      · right
        cases he : error_text with
        | none => rw [he] at h; simp [errTruthy] at h
        | some t => simp
    · intro h
      rcases h with h | h
      · simp [recordUsageEvent, h]
      · cases he : error_text with
        | none => exact absurd he h
        | some t =>
          have hs := hne t he
          simp [recordUsageEvent, he, errTruthy, hs]

/-- C3: every `UsageEvent` recorded from a `query_model` result has all
token fields null whenever `usage_missing` is true, and `usage_missing` is
true exactly when the provider returned no (non-empty) usage block or the
attempt errored (`error_text` present). -/
theorem C3_usage_missing (pricing : String → Option (ℚ × ℚ)) (model : String)
    (cfg : ORConfig) (authUntil tEntry tAuth : Nat)
    (responses : Nat → HttpOutcome) (rand : Nat → ℚ) :
    ((recordUsageEvent pricing model
        (queryModel cfg authUntil tEntry tAuth responses rand).1.usage
        (queryModel cfg authUntil tEntry tAuth responses rand).1.error_text).usage_missing = true →
      (recordUsageEvent pricing model
        (queryModel cfg authUntil tEntry tAuth responses rand).1.usage
        (queryModel cfg authUntil tEntry tAuth responses rand).1.error_text).prompt_tokens = none ∧
      (recordUsageEvent pricing model
        (queryModel cfg authUntil tEntry tAuth responses rand).1.usage
        (queryModel cfg authUntil tEntry tAuth responses rand).1.error_text).completion_tokens = none ∧
      (recordUsageEvent pricing model
        (queryModel cfg authUntil tEntry tAuth responses rand).1.usage
        (queryModel cfg authUntil tEntry tAuth responses rand).1.error_text).total_tokens = none) ∧
    ((recordUsageEvent pricing model
        (queryModel cfg authUntil tEntry tAuth responses rand).1.usage
        (queryModel cfg authUntil tEntry tAuth responses rand).1.error_text).usage_missing = true ↔
      (usageTruthy (queryModel cfg authUntil tEntry tAuth responses rand).1.usage = false ∨
        (queryModel cfg authUntil tEntry tAuth responses rand).1.error_text ≠ none)) := by
  have inv := queryModel_result_invariants cfg authUntil tEntry tAuth responses rand
  exact recordUsage_invariants_of pricing model _ _
    (fun hu => (inv.1 hu).2) inv.2

theorem C3_usage_missing_witness :
    (recordUsageEvent noPricing "m"
      (queryModel sampleCfg 0 0 0 resp402 randZero).1.usage
      (queryModel sampleCfg 0 0 0 resp402 randZero).1.error_text).usage_missing = true ∧
    (recordUsageEvent noPricing "m"
      (queryModel sampleCfg 0 0 0 resp402 randZero).1.usage
      (queryModel sampleCfg 0 0 0 resp402 randZero).1.error_text).total_tokens = none :=
  ⟨by decide,
   ((C3_usage_missing noPricing "m" sampleCfg 0 0 0 resp402 randZero).1 (by decide)).2.2⟩

/-- Helper: the cost clause never raises a token-budget reason. -/
theorem checkCostBudget_ne_token (b : CouncilBudgetM) (events : List UsageEventM) :
    checkCostBudget b events ≠ .error "token_usage_missing" ∧
    checkCostBudget b events ≠ .error "max_total_tokens" := by
  unfold checkCostBudget
  rcases b.max_total_cost_usd with _ | cap
  · simp
  · simp only []
    split_ifs <;> simp

/-- Helper: the budgeted sequential loop aborts with the models called so
far, which form a prefix of the configured model list. -/
theorem stage1Budgeted_abort_called (budget : Option CouncilBudgetM)
    (pricing : String → Option (ℚ × ℚ))
    (resp : String → Option UsageJson × Option String) :
    ∀ models events called called2,
      stage1Budgeted budget pricing resp models events called = .error called2 →
      ∃ pre, called2 = called ++ pre ∧ pre <+: models := by
  intro models
  induction models with
  | nil =>
    intro events called called2 h
    simp [stage1Budgeted] at h
  | cons m rest ih =>
    intro events called called2 h
    simp only [stage1Budgeted] at h
    rcases hc : checkBudget budget
        (events ++ [recordUsageEvent pricing m (resp m).1 (resp m).2]) with e | u
    · rw [hc] at h
      simp at h
      exact ⟨[m], by rw [← h], ⟨rest, rfl⟩⟩
    · rw [hc] at h
      simp at h
      obtain ⟨pre, hp, hpre⟩ := ih _ _ _ h
      refine ⟨m :: pre, by simpa using hp, ?_⟩
      obtain ⟨t, ht⟩ := hpre
      exact ⟨t, by rw [List.cons_append, ht]⟩

/-- C2: with `max_total_tokens` set, the budget check performed after each
recorded usage event raises `token_usage_missing` iff some event of the run
has null `total_tokens`, and otherwise raises `max_total_tokens` iff the
running token sum strictly exceeds the cap; and when the budgeted sequential
stage-1 loop aborts, the models already called form a prefix of the council
list (the remaining calls are never issued) and `council_ask` catches the
abort and returns a failed-run envelope with `errors=["budget_exceeded"]`,
`degraded=true` and `final_answer=""`. -/
theorem C2_budget_enforcement (b : CouncilBudgetM) (cap : Int)
    (events : List UsageEventM) (hcap : b.max_total_tokens = some cap)
    (hne : events ≠ []) :
    ((checkBudget (some b) events = .error "token_usage_missing") ↔
      ∃ e ∈ events, e.total_tokens = none) ∧
    ((∀ e ∈ events, e.total_tokens ≠ none) →
      ((checkBudget (some b) events = .error "max_total_tokens") ↔
        cap < (events.filterMap (fun e => e.total_tokens)).sum)) ∧
    (∀ budget pricing resp models called,
        stage1Budgeted budget pricing resp models [] [] = .error called →
        called <+: models ∧
        ∀ cont, councilAskStage1 budget pricing resp models cont =
          { final_answer := "", degraded := true,
            errors := ["budget_exceeded"], run_status := "failed" }) := by
  have hany : ((events.any fun e => e.total_tokens.isNone) = true) ↔
      ∃ e ∈ events, e.total_tokens = none := by
    simp [List.any_eq_true, Option.isNone_iff_eq_none]
  have hc221 : (usageTotals events).2.2.1 = (events.any fun e => e.total_tokens.isNone) := by
    simp [usageTotals]
  refine ⟨?_, ?_, ?_⟩
  · by_cases hmiss : ∃ e ∈ events, e.total_tokens = none
    · have : checkBudget (some b) events = .error "token_usage_missing" := by
        simp only [checkBudget, hcap]
        rw [if_pos (Or.inl (by rw [hc221]; exact hany.mpr hmiss))]
      simp [this, hmiss]
    · have hanyf : ¬ ((events.any fun e => e.total_tokens.isNone) = true) := by
        rw [hany]; exact hmiss
      have htv : ¬ (events.filterMap (fun e => e.total_tokens)).isEmpty = true := by
        rcases events with _ | ⟨e0, rest⟩
        · exact absurd rfl hne
        · rcases h0 : e0.total_tokens with _ | v
          · exact absurd ⟨e0, by simp, h0⟩ hmiss
          · simp [List.filterMap_cons, h0]
      have ht1 : (usageTotals events).1 =
          some (events.filterMap (fun e => e.total_tokens)).sum := by
        simp only [usageTotals]
        rw [if_neg htv]
      constructor
      · intro h
        exfalso
        simp only [checkBudget, hcap] at h
        rw [if_neg (by
          push_neg
          refine ⟨by rw [hc221]; exact hanyf, by rw [ht1]; simp⟩), ht1] at h
        split_ifs at h with hgt
        · exact absurd (Except.error.inj h) (by decide)
        · exact (checkCostBudget_ne_token b events).1 h
      · intro h
        exact absurd (hany.mpr h) hanyf
  · intro hnonull
    have hanyf : ¬ ((events.any fun e => e.total_tokens.isNone) = true) := by
      rw [hany]
      rintro ⟨e, he, h0⟩
      exact hnonull e he h0
    have htv : ¬ (events.filterMap (fun e => e.total_tokens)).isEmpty = true := by
      rcases events with _ | ⟨e0, rest⟩
      · exact absurd rfl hne
      · rcases h0 : e0.total_tokens with _ | v
        · exact absurd h0 (hnonull e0 (by simp))
        · simp [List.filterMap_cons, h0]
    have ht1 : (usageTotals events).1 =
        some (events.filterMap (fun e => e.total_tokens)).sum := by
      simp only [usageTotals]
      rw [if_neg htv]
    simp only [checkBudget, hcap]
    rw [if_neg (by
      push_neg
      refine ⟨by rw [hc221]; exact hanyf, by rw [ht1]; simp⟩), ht1]
    by_cases hgt : cap < (events.filterMap (fun e => e.total_tokens)).sum
    · rw [if_pos (by simpa using hgt)]
      simp [hgt]
    · rw [if_neg (by simpa using hgt)]
      constructor
      · intro h
        exact absurd h (checkCostBudget_ne_token b events).2
      · intro h
        exact absurd h hgt
  · intro budget pricing resp models called habort
    constructor
    · obtain ⟨pre, hp, hpre⟩ :=
        stage1Budgeted_abort_called budget pricing resp models [] [] called habort
      rw [hp]
      simpa using hpre
    · intro cont
      simp [councilAskStage1, habort, councilAskOnBudgetAbort]

theorem C2_budget_enforcement_witness :
    (checkBudget (some { max_total_cost_usd := none, max_total_tokens := some 1 })
        [recordUsageEvent noPricing "m1" (respTwoTokens "m1").1 (respTwoTokens "m1").2] =
      .error "max_total_tokens") ∧
    (stage1Budgeted (some { max_total_cost_usd := none, max_total_tokens := some 1 })
        noPricing respTwoTokens ["m1", "m2"] [] [] = .error ["m1"]) ∧
    ["m1"] <+: ["m1", "m2"] ∧
    (councilAskStage1 (some { max_total_cost_usd := none, max_total_tokens := some 1 })
        noPricing respTwoTokens ["m1", "m2"]
        (fun _ => { final_answer := "x", degraded := false, errors := [], run_status := "succeeded" }) =
      { final_answer := "", degraded := true,
        errors := ["budget_exceeded"], run_status := "failed" }) := by
  refine ⟨?_, by decide, ?_, ?_⟩
  · have h := (C2_budget_enforcement
      { max_total_cost_usd := none, max_total_tokens := some 1 } 1
      [recordUsageEvent noPricing "m1" (respTwoTokens "m1").1 (respTwoTokens "m1").2]
      rfl (by decide)).2.1 (by decide)
    exact h.mpr (by decide)
  · have h := (C2_budget_enforcement
      { max_total_cost_usd := none, max_total_tokens := some 1 } 1
      [recordUsageEvent noPricing "m1" (respTwoTokens "m1").1 (respTwoTokens "m1").2]
      rfl (by decide)).2.2
      (some { max_total_cost_usd := none, max_total_tokens := some 1 })
      noPricing respTwoTokens ["m1", "m2"] ["m1"] (by decide)
    exact h.1
  · have h := (C2_budget_enforcement
      { max_total_cost_usd := none, max_total_tokens := some 1 } 1
      [recordUsageEvent noPricing "m1" (respTwoTokens "m1").1 (respTwoTokens "m1").2]
      rfl (by decide)).2.2
      (some { max_total_cost_usd := none, max_total_tokens := some 1 })
      noPricing respTwoTokens ["m1", "m2"] ["m1"] (by decide)
    exact h.2 _

/-- C7: the cache is populated only from validated/successful outputs — a
freshly computed stage-2 judgement is written to the cache iff its `valid`
flag is true (an invalid judgement is never cached; a transport failure
writes nothing), and a stage-1 answer is written only on a cache miss where
the upstream call succeeded with non-null content. -/
theorem C7_cache_only_validated (first retry : ORResult) (parse : ParseOracle)
    (cached : Option String) (r : ORResult) :
    (∀ j ws, judgeStep first retry parse = (some j, ws) →
      ws = if j.valid then [j] else []) ∧
    (∀ ws, judgeStep first retry parse = (none, ws) → ws = []) ∧
    (∀ c, c ∈ (stage1One cached r).2 →
      cached = none ∧ r.ok = true ∧ r.content = some c) := by
  refine ⟨?_, ?_, ?_⟩
  · intro j ws h
    unfold judgeStep at h
    rcases ho : judgeOut first retry parse with _ | out
    · rw [ho] at h
      simp at h
    · rw [ho] at h
      simp only [Prod.mk.injEq, Option.some.injEq] at h
      obtain ⟨hj, hw⟩ := h
      rw [← hj, ← hw]
  · intro ws h
    unfold judgeStep at h
    rcases ho : judgeOut first retry parse with _ | out
    · rw [ho] at h
      simp only [Prod.mk.injEq] at h
      exact h.2.symm
    · rw [ho] at h
      simp at h
  · intro c hc
    cases cached with
    | some s => simp [stage1One] at hc
    | none =>
      cases hok : r.ok with
      | false => simp [stage1One, hok] at hc
      | true =>
        cases hct : r.content with
        | none => simp [stage1One, hok, hct] at hc
        | some c0 =>
          simp only [stage1One, hok, hct, List.mem_singleton] at hc
          exact ⟨rfl, rfl, by rw [hc]⟩

theorem C7_cache_only_validated_witness :
    ((judgeStep okContentResult failedResultSample parseRankingA).2 =
      if judgeOutA.valid then [judgeOutA] else []) ∧
    (okContentResult.ok = true ∧ okContentResult.content = some "raw") :=
  ⟨(C7_cache_only_validated okContentResult failedResultSample parseRankingA none
      okContentResult).1 judgeOutA
      (judgeStep okContentResult failedResultSample parseRankingA).2 (by decide),
   ((C7_cache_only_validated okContentResult failedResultSample parseRankingA none
      okContentResult).2.2 "raw" (by decide)).2⟩

/-- Helper: judgements that are invalid or have an empty ranking contribute
nothing to the accumulated positions. -/
theorem rankingCounts_filter (ltm : List (String × String)) :
    ∀ (stage2 : List Stage2ResultM),
      rankingCounts stage2 ltm =
        rankingCounts (stage2.filter (fun r => r.valid && !r.parsed_ranking.isEmpty)) ltm := by
  suffices h : ∀ (stage2 : List Stage2ResultM) (mp : List (String × List Nat)),
      stage2.foldl
        (fun mp r =>
          if r.valid && !r.parsed_ranking.isEmpty then
            addRanking ltm mp 1 r.parsed_ranking
          else mp) mp =
      (stage2.filter (fun r => r.valid && !r.parsed_ranking.isEmpty)).foldl
        (fun mp r =>
          if r.valid && !r.parsed_ranking.isEmpty then
            addRanking ltm mp 1 r.parsed_ranking
          else mp) mp by
    intro stage2
    unfold rankingCounts
    exact h stage2 []
  intro stage2
  induction stage2 with
  | nil => intro mp; rfl
  | cons r rest ih =>
    intro mp
    by_cases hc : (r.valid && !r.parsed_ranking.isEmpty) = true
    · have hfc : (r :: rest).filter (fun r => r.valid && !r.parsed_ranking.isEmpty) =
          r :: rest.filter (fun r => r.valid && !r.parsed_ranking.isEmpty) := by
        simp [List.filter_cons, hc]
      rw [List.foldl_cons, if_pos hc, hfc, List.foldl_cons, if_pos hc]
      exact ih _
    · have hfc : (r :: rest).filter (fun r => r.valid && !r.parsed_ranking.isEmpty) =
          rest.filter (fun r => r.valid && !r.parsed_ranking.isEmpty) := by
        simp [List.filter_cons, hc]
      rw [List.foldl_cons, if_neg hc, hfc]
      exact ih _

/-- Helper: members of an insertion are the new entry or old members. -/
theorem mem_insertByRank (e : AggEntryM) :
    ∀ l b, b ∈ insertByRank e l → b = e ∨ b ∈ l := by
  intro l
  induction l with
  | nil =>
    intro b hb
    simp [insertByRank] at hb
    exact Or.inl hb
  | cons x xs ih =>
    intro b hb
    unfold insertByRank at hb
    by_cases hle : x.average_rank ≤ e.average_rank
    · rw [if_pos hle] at hb
      rcases List.mem_cons.mp hb with hbx | hbxs
      · exact Or.inr (hbx ▸ List.mem_cons_self x xs)
      · rcases ih b hbxs with h | h
        · exact Or.inl h
        · exact Or.inr (List.mem_cons_of_mem _ h)
    · rw [if_neg hle] at hb
      rcases List.mem_cons.mp hb with hbe | hbx
      · exact Or.inl hbe
      · exact Or.inr hbx

/-- Helper: stable insertion preserves ascending order by `average_rank`. -/
theorem pairwise_insertByRank (e : AggEntryM) :
    ∀ l, l.Pairwise (fun x y => x.average_rank ≤ y.average_rank) →
      (insertByRank e l).Pairwise (fun x y => x.average_rank ≤ y.average_rank) := by
  intro l
  induction l with
  | nil =>
    intro _
    simp [insertByRank]
  | cons x xs ih =>
    intro hp
    rw [List.pairwise_cons] at hp
    obtain ⟨hx, hxs⟩ := hp
    unfold insertByRank
    by_cases hle : x.average_rank ≤ e.average_rank
    · rw [if_pos hle, List.pairwise_cons]
      constructor
      · intro b hb
        rcases mem_insertByRank e xs b hb with h | h
        · rw [h]; exact hle
        · exact hx b h
      · exact ih hxs
    · rw [if_neg hle, List.pairwise_cons]
      constructor
      · intro b hb
        have he : e.average_rank ≤ x.average_rank := le_of_not_le hle
        rcases List.mem_cons.mp hb with hbx | hbxs
        · rw [hbx]; exact he
        · exact le_trans he (hx b hbxs)
      · rw [List.pairwise_cons]
        exact ⟨hx, hxs⟩

/-- Helper: the final sort is ascending in `average_rank`. -/
theorem sortByRank_pairwise (l : List AggEntryM) :
    (sortByRank l).Pairwise (fun x y => x.average_rank ≤ y.average_rank) := by
  unfold sortByRank
  suffices h : ∀ acc, acc.Pairwise (fun x y : AggEntryM => x.average_rank ≤ y.average_rank) →
      (l.foldl (fun acc e => insertByRank e acc) acc).Pairwise
        (fun x y => x.average_rank ≤ y.average_rank) by
    exact h [] (by simp)
  induction l with
  | nil => intro acc hacc; exact hacc
  | cons e rest ih =>
    intro acc hacc
    exact ih _ (pairwise_insertByRank e acc hacc)

/-- C6 (amended): aggregate ranking uses only judgements with `valid=true`
and a non-empty `parsed_ranking`, accumulates 1-indexed positions for labels
present in `label_to_model` (other labels are ignored but keep their
positions), outputs rows sorted ascending by `average_rank`, and
`average_rank` is the mean of the accumulated positions **rounded to two
decimals** (Python `round(·, 2)`); on the two judges ranking
`[A, B, C]` and `[B, A, C]` this yields average ranks `1.5, 1.5, 3.0`. -/
theorem C6_aggregate_rankings (stage2 : List Stage2ResultM)
    (ltm : List (String × String)) :
    (calculateAggregateRankings stage2 ltm =
      calculateAggregateRankings
        (stage2.filter (fun r => r.valid && !r.parsed_ranking.isEmpty)) ltm) ∧
    (calculateAggregateRankings stage2 ltm).Pairwise
      (fun x y => x.average_rank ≤ y.average_rank) ∧
    calculateAggregateRankings
      [{ model := "j1", valid := true,
         parsed_ranking := ["Response A", "Response B", "Response C"] },
       { model := "j2", valid := true,
         parsed_ranking := ["Response B", "Response A", "Response C"] }]
      [("Response A", "mA"), ("Response B", "mB"), ("Response C", "mC")] =
      [{ model := "mA", average_rank := 3/2, rankings_count := 2 },
       { model := "mB", average_rank := 3/2, rankings_count := 2 },
       { model := "mC", average_rank := 3, rankings_count := 2 }] := by
  refine ⟨?_, ?_, ?_⟩
  · unfold calculateAggregateRankings
    rw [rankingCounts_filter]
  · unfold calculateAggregateRankings
    exact sortByRank_pairwise _
  · have hrc : rankingCounts
        [{ model := "j1", valid := true,
           parsed_ranking := ["Response A", "Response B", "Response C"] },
         { model := "j2", valid := true,
           parsed_ranking := ["Response B", "Response A", "Response C"] }]
        [("Response A", "mA"), ("Response B", "mB"), ("Response C", "mC")] =
        [("mA", [1, 2]), ("mB", [2, 1]), ("mC", [3, 3])] := by decide
    unfold calculateAggregateRankings
    rw [hrc]
    norm_num [roundTo, roundHalfEven, insertByRank, sortByRank,
      List.filter, List.map, List.sum_cons, List.sum_nil]

/-- C6 (counterexample): the claim says `average_rank` is the mean of the
accumulated positions, but the code rounds it to two decimals: with three
valid judges ranking `[A, B]`, `[A, B]`, `[B, A]`, model `mA` accumulates
positions `[1, 1, 2]` whose mean is `4/3`, yet the code reports `1.33`. -/
theorem C6_aggregate_rankings_counterexample :
    calculateAggregateRankings
      [{ model := "j1", valid := true, parsed_ranking := ["Response A", "Response B"] },
       { model := "j2", valid := true, parsed_ranking := ["Response A", "Response B"] },
       { model := "j3", valid := true, parsed_ranking := ["Response B", "Response A"] }]
      [("Response A", "mA"), ("Response B", "mB")] =
      [{ model := "mA", average_rank := 133/100, rankings_count := 3 },
       { model := "mB", average_rank := 167/100, rankings_count := 3 }] ∧
    (133/100 : ℚ) ≠ (1 + 1 + 2) / 3 := by
  constructor
  · have hrc : rankingCounts
        [{ model := "j1", valid := true, parsed_ranking := ["Response A", "Response B"] },
         { model := "j2", valid := true, parsed_ranking := ["Response A", "Response B"] },
         { model := "j3", valid := true, parsed_ranking := ["Response B", "Response A"] }]
        [("Response A", "mA"), ("Response B", "mB")] =
        [("mA", [1, 1, 2]), ("mB", [2, 2, 1])] := by decide
    unfold calculateAggregateRankings
    rw [hrc]
    norm_num [roundTo, roundHalfEven, insertByRank, sortByRank,
      List.filter, List.map, List.sum_cons, List.sum_nil]
  · norm_num

/-- Helper: `hasPre` decides list-prefix. -/
theorem hasPre_iff (p : List Char) : ∀ l, hasPre p l = true ↔ p <+: l := by
  induction p with
  | nil =>
    intro l
    simp [hasPre, List.nil_prefix]
  | cons a ps ih =>
    intro l
    cases l with
    | nil => simp [hasPre]
    | cons c cs =>
      simp only [hasPre, Bool.and_eq_true, decide_eq_true_eq, List.cons_prefix_cons]
      exact and_congr Iff.rfl (ih cs)

/-- Helper: `hasSub` decides list-infix (Python's `in`). -/
theorem hasSub_iff (p : List Char) : ∀ l, hasSub p l = true ↔ p <:+: l := by
  intro l
  induction l with
  | nil => simp [hasSub, List.isEmpty_iff, List.infix_nil]
  | cons c cs ih =>
    simp only [hasSub, Bool.or_eq_true, hasPre_iff, ih, List.infix_cons_iff]

/-- Helper: a non-empty all-non-whitespace infix survives `dropWhile isWs`. -/
theorem infix_dropWhile_of_not_ws (p : List Char)
    (hp : ∀ c ∈ p, isWs c = false) (hne : p ≠ []) :
    ∀ l, p <:+: l → p <:+: l.dropWhile isWs := by
  intro l
  induction l with
  | nil =>
    intro h
    simpa [List.dropWhile] using h
  | cons c cs ih =>
    intro h
    rw [List.dropWhile_cons]
    by_cases hw : isWs c = true
    · rw [if_pos hw]
      rcases List.infix_cons_iff.mp h with hpre | hinf
      · exfalso
        cases p with
        | nil => exact hne rfl
        | cons p0 ps =>
          have : p0 = c := (List.cons_prefix_cons.mp hpre).1
          have hws := hp p0 (List.mem_cons_self p0 ps)
          rw [this, hw] at hws
          cases hws
      · exact ih hinf
    · rw [if_neg hw]
      exact h

/-- Helper: a non-empty all-non-whitespace infix survives `strip()`. -/
theorem infix_stripChars (p : List Char)
    (hp : ∀ c ∈ p, isWs c = false) (hne : p ≠ []) :
    ∀ l, p <:+: l → p <:+: stripChars l := by
  intro l h
  have h1 : p <:+: l.dropWhile isWs := infix_dropWhile_of_not_ws p hp hne l h
  have h2 : p.reverse <:+: (l.dropWhile isWs).reverse := List.reverse_infix.mpr h1
  have hp' : ∀ c ∈ p.reverse, isWs c = false := fun c hc => hp c (List.mem_reverse.mp hc)
  have hne' : p.reverse ≠ [] := by
    intro hcon
    exact hne (by simpa using congrArg List.reverse hcon)
  have h3 : p.reverse <:+: ((l.dropWhile isWs).reverse.dropWhile isWs) :=
    infix_dropWhile_of_not_ws p.reverse hp' hne' _ h2
  unfold stripChars
  exact List.reverse_infix.mp (by rw [List.reverse_reverse]; exact h3)

/-- Helper: a string containing `"://"` is never classified as a file path. -/
theorem looksLike_false_of_url (s : String) (h : hasSub "://".data s.data = true) :
    looksLikeFilePath s = false := by
  have hinf : "://".data <:+: s.data := (hasSub_iff _ _).mp h
  have h2 : "://".data <:+: stripChars s.data :=
    infix_stripChars _ (by decide) (by decide) _ hinf
  have h3 : hasSub "://".data (stripChars s.data) = true := (hasSub_iff _ _).mpr h2
  simp [looksLikeFilePath, h3]

/-- C10: the scope-enforcement path classifier rejects every string
containing `"://"` (even though such strings contain `/`), so a
`ScopeContract` whose `in_scope` entries all contain `"://"` activates no
path-scope enforcement: `_enforce_scope_paths` returns no violations for
any `patch_scope`. -/
theorem C10_url_entries_not_paths (sc : ScopeContractM) (impl : CodexPromptOutputM)
    (h : ∀ e ∈ sc.in_scope, hasSub "://".data e.data = true) :
    (∀ s : String, hasSub "://".data s.data = true → looksLikeFilePath s = false) ∧
    enforceScopePaths sc impl = [] := by
  refine ⟨looksLike_false_of_url, ?_⟩
  unfold enforceScopePaths
  have hfe : sc.in_scope.filter (fun s => looksLikeFilePath s) = [] := by
    rw [List.filter_eq_nil_iff]
    intro a ha
    simp [looksLike_false_of_url a (h a ha)]
  rw [hfe]
  simp

theorem C10_url_entries_not_paths_witness :
    enforceScopePaths urlScope sampleImplOut = [] :=
  (C10_url_entries_not_paths urlScope sampleImplOut (by decide)).2

/-- Helper: with at least one path-like `in_scope` entry, the scope gate
passes exactly when the normalized patch list is non-empty and contained in
the normalized allowed set. -/
theorem enforceScopePaths_eq_nil_iff (sc : ScopeContractM) (impl : CodexPromptOutputM)
    (h : ∃ s ∈ sc.in_scope, looksLikeFilePath s = true) :
    enforceScopePaths sc impl = [] ↔
      (patchNormalized impl ≠ [] ∧
        ∀ p ∈ patchNormalized impl, p ∈ allowedNormalized sc) := by
  obtain ⟨s, hs, hl⟩ := h
  have hmem : s ∈ sc.in_scope.filter (fun s => looksLikeFilePath s) :=
    List.mem_filter.mpr ⟨hs, hl⟩
  have hne : sc.in_scope.filter (fun s => looksLikeFilePath s) ≠ [] :=
    List.ne_nil_of_mem hmem
  unfold enforceScopePaths
  rw [if_neg (by rw [List.isEmpty_iff]; exact hne)]
  by_cases hp : (patchNormalized impl).isEmpty = true
  · rw [if_pos hp]
    rw [List.isEmpty_iff] at hp
    simp [hp]
  · rw [if_neg hp]
    rw [List.isEmpty_iff] at hp
    rw [List.filter_eq_nil_iff]
    simp only [decide_not, Bool.not_eq_true', decide_eq_false_iff_not, not_not]
    exact (and_iff_right hp).symm

/-- C1 (amended): when `scope.in_scope` has at least one entry the code's
classifier accepts as a file path (contains `/` or ends in a known suffix,
and — as the counterexample forces — does not contain `"://"`), the
normalized `patch_scope` must be non-empty and a subset of the normalized
allowed set; any violation makes the pipeline return a synthesized
`GateOutput` with verdict `FAIL` and non-empty `must_fix`, record a step
with `model="deterministic"`, append `scope_violation` to `errors`, and
terminate without ever calling the gate model; and the pass/fail outcome
depends only on the two normalized path sets. -/
theorem C1_scope_enforcement (sc : ScopeContractM) (impl : CodexPromptOutputM)
    (gateOracle : Nat → Option GateOutputM)
    (reviseOracle : Nat → Option CodexPromptOutputM)
    (maxIter : Nat) (degraded : Bool) (errors0 : List String)
    (h : ∃ s ∈ sc.in_scope, looksLikeFilePath s = true) :
    (enforceScopePaths sc impl = [] ↔
      (patchNormalized impl ≠ [] ∧
        ∀ p ∈ patchNormalized impl, p ∈ allowedNormalized sc)) ∧
    (enforceScopePaths sc impl ≠ [] →
      afterImplementer sc impl gateOracle reviseOracle maxIter degraded errors0 =
        { result :=
            { implementer := some impl
              gate := some (synthGate sc (enforceScopePaths sc impl))
              gate_verdict := "FAIL"
              final_codex_prompt := none
              degraded := true
              errors := errors0 ++ ["scope_violation"] }
          steps := [deterministicStep]
          gateCalls := 0 } ∧
      (synthGate sc (enforceScopePaths sc impl)).verdict = "FAIL" ∧
      (synthGate sc (enforceScopePaths sc impl)).must_fix ≠ []) ∧
    (∀ sc2 impl2,
      (∀ x, x ∈ allowedNormalized sc ↔ x ∈ allowedNormalized sc2) →
      (∀ x, x ∈ patchNormalized impl ↔ x ∈ patchNormalized impl2) →
      (∃ s ∈ sc2.in_scope, looksLikeFilePath s = true) →
      (enforceScopePaths sc impl = [] ↔ enforceScopePaths sc2 impl2 = [])) := by
  refine ⟨enforceScopePaths_eq_nil_iff sc impl h, ?_, ?_⟩
  · intro hv
    refine ⟨?_, rfl, ?_⟩
    · unfold afterImplementer
      rw [if_neg (by rw [List.isEmpty_iff]; exact hv)]
    · simp only [synthGate, ne_eq, List.map_eq_nil_iff]
      exact hv
  · intro sc2 impl2 hallow hpatch h2
    rw [enforceScopePaths_eq_nil_iff sc impl h,
      enforceScopePaths_eq_nil_iff sc2 impl2 h2]
    constructor
    · rintro ⟨hne2, hsub⟩
      obtain ⟨x, hx⟩ := List.exists_mem_of_ne_nil _ hne2
      refine ⟨List.ne_nil_of_mem ((hpatch x).mp hx), ?_⟩
      intro p hp
      exact (hallow p).mp (hsub p ((hpatch p).mpr hp))
    · rintro ⟨hne2, hsub⟩
      obtain ⟨x, hx⟩ := List.exists_mem_of_ne_nil _ hne2
      refine ⟨List.ne_nil_of_mem ((hpatch x).mpr hx), ?_⟩
      intro p hp
      exact (hallow p).mpr (hsub p ((hpatch p).mp hp))

theorem C1_scope_enforcement_witness :
    (enforceScopePaths sampleScope sampleImplOut = ["backend/src/bar.py"]) ∧
    (afterImplementer sampleScope sampleImplOut noneGateOracle noneReviseOracle
        2 false [] =
      { result := { implementer := some sampleImplOut
                    gate := some (synthGate sampleScope ["backend/src/bar.py"])
                    gate_verdict := "FAIL"
                    final_codex_prompt := none
                    degraded := true
                    errors := ["scope_violation"] }
        steps := [deterministicStep], gateCalls := 0 }) := by
  have h1 : enforceScopePaths sampleScope sampleImplOut = ["backend/src/bar.py"] := by
    decide
  refine ⟨h1, ?_⟩
  have h2 := ((C1_scope_enforcement sampleScope sampleImplOut noneGateOracle
      noneReviseOracle 2 false [] (by decide)).2.1 (by decide)).1
  rw [h1] at h2
  simpa using h2

/-- C1 (counterexample): the claim's classifier ("contains `/` or ends in a
known suffix") accepts `"http://x"`, and with `patch_scope = []` the claim
then demands a synthesized `FAIL` with `scope_violation` and no gate-model
call; but the code excludes `"://"` strings, finds no violation, calls the
gate model once and can return `PASS` with no errors. -/
theorem C1_scope_enforcement_counterexample :
    specPathLike "http://x" = true ∧
    enforceScopePaths
      { in_scope := ["http://x"], acceptance_criteria := [],
        tests_policy := { required := false } }
      { final_codex_prompt := "p", patch_scope := [] } = [] ∧
    (afterImplementer
      { in_scope := ["http://x"], acceptance_criteria := [],
        tests_policy := { required := false } }
      { final_codex_prompt := "p", patch_scope := [] }
      passGateOracle noneReviseOracle 1 false []).result.gate_verdict = "PASS" ∧
    (afterImplementer
      { in_scope := ["http://x"], acceptance_criteria := [],
        tests_policy := { required := false } }
      { final_codex_prompt := "p", patch_scope := [] }
      passGateOracle noneReviseOracle 1 false []).result.errors = [] ∧
    (afterImplementer
      { in_scope := ["http://x"], acceptance_criteria := [],
        tests_policy := { required := false } }
      { final_codex_prompt := "p", patch_scope := [] }
      passGateOracle noneReviseOracle 1 false []).gateCalls = 1 := by
  decide

end LLMCouncil
